import Mathlib

set_option maxHeartbeats 1000000

/-!
Verification of the ARC-AGI candidate evaluator (execute.py) and the
evolutionary search driver (main.py), as a shallow embedding.

Python values that can flow through the evaluator (results of
ast.literal_eval and of candidate transform functions) are modelled by
`PyVal`; Python exceptions are modelled by the `Except String` monad, so a
`.error` result of an embedded function corresponds to an exception
propagating out of the corresponding Python function.  Python string
searching (str.find / str.rfind) is modelled on `List Char`.  External
effects (the ast.literal_eval library call and the `exec` of candidate
source text) are parameters of the embedding (`LitEval`, `ExecSem`): the
embedded functions are quantified over every possible behaviour of those
collaborators.
-/

deriving instance DecidableEq for Except

/-- Python values: None, integers, and (nested) lists. -/
inductive PyVal where
  | none : PyVal
  | int : Int → PyVal
  | list : List PyVal → PyVal

mutual

/-- Python `==` on embedded values. -/
def PyVal.beq : PyVal → PyVal → Bool
  | .none, .none => true
  | .int a, .int b => a == b
  | .list xs, .list ys => PyVal.beqList xs ys
  | _, _ => false
termination_by structural a => a

/-- Python `==` on two list values, elementwise. -/
def PyVal.beqList : List PyVal → List PyVal → Bool
  | [], [] => true
  | x :: xs, y :: ys => PyVal.beq x y && PyVal.beqList xs ys
  | _, _ => false
termination_by structural a => a

end

/-- A training or test grid as found in a task JSON file: a list of rows of
integers (`execute.py` imposes no further structure on it). -/
def Grid := List (List Int)

/-- The embedding of a JSON grid as the Python value it denotes. -/
def Grid.toVal (g : List (List Int)) : PyVal :=
  .list (g.map (fun r => PyVal.list (r.map PyVal.int)))

/-- Python `len(v)`: succeeds on lists, raises TypeError otherwise. -/
def pyLen : PyVal → Except String Nat
  | .list xs => .ok xs.length
  | .none => .error "TypeError: object of type 'NoneType' has no len()"
  | .int _ => .error "TypeError: object of type 'int' has no len()"

/-- Python `v[i]` for a non-negative index: raises IndexError past the end
and TypeError on non-lists. -/
def pyIndex : PyVal → Nat → Except String PyVal
  | .list xs, i =>
    match xs.get? i with
    | some v => .ok v
    | Option.none => .error "IndexError: list index out of range"
  | .none, _ => .error "TypeError: 'NoneType' object is not subscriptable"
  | .int _, _ => .error "TypeError: 'int' object is not subscriptable"

/-- One comparison `output_grid[i][j] == ground_truth[i][j]` from the
counting loop of `pixel_correctness`, in Python's evaluation order. -/
def pcCell (a b : PyVal) (i j : Nat) : Except String Bool :=
  match pyIndex a i with
  | .error e => .error e
  | .ok ai =>
    match pyIndex ai j with
    | .error e => .error e
    | .ok aij =>
      match pyIndex b i with
      | .error e => .error e
      | .ok bi =>
        match pyIndex bi j with
        | .error e => .error e
        | .ok bij => .ok (PyVal.beq aij bij)

/-- The nested counting loops of `pixel_correctness` (lines 20-23 of
execute.py): `for i in range(rows): for j in range(cols): ...`. -/
def pcLoop (a b : PyVal) (rows cols : Nat) : Except String Nat :=
  (List.range rows).foldlM
    (fun acc i =>
      (List.range cols).foldlM
        (fun acc2 j =>
          match pcCell a b i j with
          | .error e => .error e
          | .ok m => .ok (if m then acc2 + 1 else acc2))
        acc)
    0

/-- `pixel_correctness` (execute.py lines 7-25).  The dimension guard
compares only the row counts and the lengths of the first rows, with
Python's short-circuit `or`; the division at line 25 raises
ZeroDivisionError when `total_pixels` is zero. -/
def pixel_correctness (a b : PyVal) : Except String ℚ :=
  match pyLen a with
  | .error e => .error e
  | .ok la =>
    match pyLen b with
    | .error e => .error e
    | .ok lb =>
      if la ≠ lb then .ok 0
      else
        match pyIndex a 0 with
        | .error e => .error e
        | .ok a0 =>
          match pyLen a0 with
          | .error e => .error e
          | .ok la0 =>
            match pyIndex b 0 with
            | .error e => .error e
            | .ok b0 =>
              match pyLen b0 with
              | .error e => .error e
              | .ok lb0 =>
                if la0 ≠ lb0 then .ok 0
                else
                  match pcLoop a b la la0 with
                  | .error e => .error e
                  | .ok m =>
                    if la * la0 = 0 then .error "ZeroDivisionError: division by zero"
                    else .ok ((m : ℚ) / ((la * la0 : Nat) : ℚ))

/-- Does `pat` occur in `s` at position `i`?  (Executable form used by the
embedded `str.find` / `str.rfind`.) -/
def matchesAt (pat s : List Char) (i : Nat) : Bool :=
  ((s.drop i).take pat.length) == pat

/-- Does `pat` occur in `s` at position `i`?  (Propositional form.) -/
def occursAt (pat s : List Char) (i : Nat) : Prop :=
  (s.drop i).take pat.length = pat

/-- Scan positions `i, i+1, ...` (at most `fuel` of them) for the first
occurrence of `pat`. -/
def findUp (pat s : List Char) : Nat → Nat → Option Nat
  | _, 0 => Option.none
  | i, Nat.succ f => if matchesAt pat s i then some i else findUp pat s (i + 1) f

/-- Python `s.find(pat, start)` for a non-negative `start` and non-empty
`pat` (result `none` models -1). -/
def findFrom (pat s : List Char) (start : Nat) : Option Nat :=
  findUp pat s start (s.length + 1 - start)

/-- Scan positions `i, i-1, ..., 0` for an occurrence of `pat`. -/
def rfindDown (pat s : List Char) : Nat → Option Nat
  | 0 => if matchesAt pat s 0 then some 0 else Option.none
  | Nat.succ j => if matchesAt pat s (j + 1) then some (j + 1) else rfindDown pat s j

/-- Python `s.rfind(pat)` for non-empty `pat` (result `none` models -1). -/
def rfindL (pat s : List Char) : Option Nat :=
  rfindDown pat s s.length

/-- Python whitespace, as stripped by `str.strip()`. -/
def isPySpace (c : Char) : Bool :=
  c = ' ' || c = '\t' || c = '\n' || c = '\r' || c = Char.ofNat 11 || c = Char.ofNat 12

/-- Python `str.strip()`. -/
def pyStrip (l : List Char) : List Char :=
  ((l.dropWhile isPySpace).reverse.dropWhile isPySpace).reverse

/-- Python `pat in s` substring containment. -/
def containsSub (s pat : String) : Bool :=
  (findFrom pat.data s.data 0).isSome

/-- `extract_program` (execute.py lines 28-37): anchor on the last
`“```python”` via rfind, then the first `“```”` found from `start + 8`;
slice `[start + 9 : end]` and strip.  A missing fence executes
`raise ("...")`, i.e. raises a TypeError whose message is
"exceptions must derive from BaseException". -/
def extract_program (response : String) : Except String String :=
  let s := response.data
  match rfindL "```python".data s with
  | Option.none => .error "exceptions must derive from BaseException"
  | some start =>
    match findFrom "```".data s (start + 8) with
    | Option.none => .error "exceptions must derive from BaseException"
    | some e => .ok (String.mk (pyStrip ((s.drop (start + 9)).take (e - (start + 9)))))

/-- The behaviour of the external `ast.literal_eval` library call on the
string handed to it: a parameter of the embedding (`.error` = the call
raises). -/
def LitEval : Type := String → Except String PyVal

/-- `extract_array` (execute.py lines 137-156): slice between the first
`<output>` and the first `</output>`, strip, and literal-eval; a parse
failure is swallowed (prints and returns None), while missing tags raise
ValueError. -/
def extract_array (lit : LitEval) (content : String) : Except String PyVal :=
  let s := content.data
  match findFrom "<output>".data s 0 with
  | Option.none => .error "No opening <output> tag found in file"
  | some start =>
    match findFrom "</output>".data s 0 with
    | Option.none => .error "No closing </output> tag found in file"
    | some e =>
      let array_str := String.mk (pyStrip ((s.drop (start + 8)).take (e - (start + 8))))
      match lit array_str with
      | .error _ => .ok PyVal.none
      | .ok v => .ok v

/-- A task as loaded from a JSON file (§6 of the spec): training pairs plus
the single test pair that `evaluate_response` reads via `task["test"][0]`. -/
structure TaskData where
  train : List (List (List Int) × List (List Int))
  test_input : List (List Int)
  test_output : List (List Int)

/-- A loaded `transform` entry point.  Invoking model-generated code can
return any Python value or raise. -/
def TransformFn : Type := PyVal → Except String PyVal

/-- The namespace dict passed to `exec`.  `counter` stands for observable
module-level state accumulated by executing the candidate source (so that
double execution is visible); `transform` is the entry point the source may
define. -/
structure PyNamespace where
  counter : Nat
  transform : Option TransformFn

/-- The behaviour of `exec(code, namespace)` on candidate source text: a
parameter of the embedding (`.error` = defining the source raised). -/
def ExecSem : Type := String → PyNamespace → Except String PyNamespace

/-- The fresh namespace `{}` created by `load_transform_function`. -/
def emptyNS : PyNamespace := ⟨0, Option.none⟩

/-- `load_transform_function` (execute.py lines 40-54): the source is
executed twice in the same fresh namespace — the first `exec` unguarded,
the second wrapped into a ValueError — and then the `transform` entry is
looked up. -/
def load_transform_function (execC : ExecSem) (code : String) : Except String TransformFn :=
  match execC code emptyNS with
  | .error e => .error e
  | .ok ns1 =>
    match execC code ns1 with
    | .error e => .error ("Failed to execute code with error: " ++ e)
    | .ok ns2 =>
      match ns2.transform with
      | Option.none => .error "No transform function found in the code"
      | some f => .ok f

/-- The tuple returned by `evaluate_response`: `(solved, code, results,
correctness, avg_pixel_correctness)`.  In the transduction branch Python
returns the boolean `solved` in the `correctness` slot; downstream it is
used as a number, so it is embedded as `if solved then 1 else 0`. -/
structure Verdict where
  solved : Bool
  code : String
  results : String
  correctness : ℚ
  avg_pixel : ℚ

mutual

/-- Python `str(v)` on an embedded value. -/
def PyVal.pyStr : PyVal → String
  | .none => "None"
  | .int n => toString n
  | .list xs => "[" ++ PyVal.pyStrCells xs ++ "]"
termination_by structural v => v

/-- The comma-separated cells of `str` of a list value. -/
def PyVal.pyStrCells : List PyVal → String
  | [] => ""
  | [x] => PyVal.pyStr x
  | x :: y :: xs => PyVal.pyStr x ++ ", " ++ PyVal.pyStrCells (y :: xs)
termination_by structural l => l

end

/-- Python `str(row)` for a row of ints. -/
def fmtRow (r : List Int) : String :=
  "[" ++ String.intercalate ", " (r.map toString) ++ "]"

/-- `",\n".join(str(row) for row in grid)` for a JSON grid. -/
def fmtGrid (g : List (List Int)) : String :=
  String.intercalate ",\n" (g.map fmtRow)

/-- `",\n".join(str(row) for row in v)` for an arbitrary transform result:
iterating a non-list raises TypeError. -/
def fmtValRows (v : PyVal) : Except String String :=
  match v with
  | .list xs => .ok (String.intercalate ",\n" (xs.map PyVal.pyStr))
  | .none => .error "TypeError: 'NoneType' object is not iterable"
  | .int _ => .error "TypeError: 'int' object is not iterable"

/-- The training loop of `evaluate_response` (execute.py lines 92-122),
carrying `(i, results, correct_count, pixel_correctness_sum)`.  `.inl`
models the early `return False, code, results, -1, -1` at line 100 (note
line 99 overwrites `results`, discarding the earlier pairs' report);
`.inr` falls through with the accumulated state. -/
def evalTrainLoop (transform : TransformFn) (code : String) :
    List (List (List Int) × List (List Int)) → Nat → String → Nat → ℚ →
    Except String (Verdict ⊕ (String × Nat × ℚ))
  | [], _, results, cc, ps => .ok (.inr (results, cc, ps))
  | (train_input, train_output) :: rest, i, results, cc, ps =>
    match transform (Grid.toVal train_input) with
    | .error e =>
      .ok (.inl ⟨false, code, "\nError: Transform function failed to run with error: " ++ e, -1, -1⟩)
    | .ok train_result =>
      let results := results ++ "Result for example " ++ toString i ++ ":\n"
      if PyVal.beq train_result (Grid.toVal train_output) then
        match pixel_correctness train_result (Grid.toVal train_output) with
        | .error e => .error e
        | .ok p =>
          evalTrainLoop transform code rest (i + 1)
            (results ++ "✓ Transformation matches expected output!\n" ++ "\n") (cc + 1) (ps + p)
      else
        match fmtValRows train_result with
        | .error e => .error e
        | .ok resRows =>
          let results := results ++ "✗ Transformation does not match expected output.\n"
            ++ "\nInput Grid:\n[" ++ fmtGrid train_input ++ "]\n"
            ++ "\nExpected Output Grid:\n[" ++ fmtGrid train_output ++ "]\n"
            ++ "\nIncorrect Resulting Output Grid:\n[" ++ resRows ++ "]\n"
          match pixel_correctness train_result (Grid.toVal train_output) with
          | .error e => .error e
          | .ok p => evalTrainLoop transform code rest (i + 1) (results ++ "\n") cc (ps + p)

/-- `evaluate_response` (execute.py lines 57-134).  A `.error` result is an
exception escaping the function (uncaught ValueError / TypeError /
IndexError / ZeroDivisionError); `.ok` is the returned verdict tuple. -/
def evaluate_response (lit : LitEval) (execC : ExecSem) (response : String) (task : TaskData) :
    Except String Verdict :=
  if containsSub response "<output>" then
    match extract_array lit response with
    | .error e => .error e
    | .ok extracted_array =>
      let solved := PyVal.beq extracted_array (Grid.toVal task.test_output)
      match pixel_correctness extracted_array (Grid.toVal task.test_output) with
      | .error e => .error e
      | .ok pc =>
        .ok ⟨solved, "", "NOT_APPLICABLE_FOR_TRANSDUCTION", if solved then 1 else 0, pc⟩
  else
    match extract_program response with
    | .error e =>
      .ok ⟨false, "",
        "\nError: Could not find Python code between triple backticks with error: " ++ e, -1, -1⟩
    | .ok code =>
      match load_transform_function execC code with
      | .error e => .error e
      | .ok transform =>
        match evalTrainLoop transform code task.train 1 "" 0 0 with
        | .error e => .error e
        | .ok (.inl v) => .ok v
        | .ok (.inr (results, correct_count, pixel_sum)) =>
          if task.train.length = 0 then .error "ZeroDivisionError: division by zero"
          else
            let correctness : ℚ := (correct_count : ℚ) / (task.train.length : ℚ)
            let avg : ℚ := pixel_sum / (task.train.length : ℚ)
            match transform (Grid.toVal task.test_input) with
            | .error e =>
              .ok ⟨false, code,
                results ++ "\nError: Transform function failed to run on the test input with error: " ++ e,
                correctness, avg⟩
            | .ok output =>
              .ok ⟨PyVal.beq output (Grid.toVal task.test_output), code, results, correctness, avg⟩

/-- One population entry built by the driver loops in main.py:
`{"response": r, "code": code, "score": correctness + avg_pixel_correctness,
"results": results}`. -/
structure EvalEntry where
  response : String
  code : String
  score : ℚ
  results : String

/-- Insert an entry into a descending-sorted list, after all entries with a
score not below it (the behaviour of Python's stable
`sort(key=score, reverse=True)` built up left to right). -/
def insertDescK {α : Type} (score : α → ℚ) (e : α) : List α → List α
  | [] => [e]
  | x :: xs => if score x < score e then e :: x :: xs else x :: insertDescK score e xs

/-- Python's stable `list.sort(key=..., reverse=True)`. -/
def sortDescK {α : Type} (score : α → ℚ) (l : List α) : List α :=
  l.foldl (fun acc e => insertDescK score e acc) []

/-- The inert prompt-template text imported from prompts.py (out of scope
per §1 of the spec: "prompt-template content and wording"); the driver is
quantified over it. -/
structure Prompts where
  system : String
  funsearch : String

/-- `construct_initial_prompt` (main.py lines 104-125). -/
def construct_initial_prompt (task : TaskData) : String :=
  let examples := task.train.enum.map (fun p =>
    "Example " ++ toString (p.1 + 1) ++ "\n\nInput:\n\n[" ++ fmtGrid p.2.1
      ++ "]\n\nOutput:\n\n[" ++ fmtGrid p.2.2 ++ "]")
  "Here are the paired example inputs and outputs.\n\n"
    ++ String.intercalate "\n\n" examples
    ++ "\n\n" ++ "Here is the additional test input without a known output:\n\n["
    ++ fmtGrid task.test_input ++ "]"

/-- `construct_funsearch_prompt` (main.py lines 157-168). -/
def construct_funsearch_prompt (P : Prompts) (responses : List EvalEntry) : String :=
  P.funsearch ++ "\n\n"
    ++ String.join (responses.enum.map (fun p =>
      "Program " ++ toString (p.1 + 1) ++ "\n" ++ "Code: \n\n" ++ p.2.code
        ++ "\n\nResults from running the code:\n\n" ++ p.2.results ++ "\n\n"))

/-- `max_tries` of `evolutionary_method`. -/
def max_tries : Nat := 5

/-- `programs_per_gen` of `evolutionary_method`. -/
def programs_per_gen : Nat := 5

/-- The per-generation evaluation loop of `evolutionary_method` (main.py
lines 214-235): evaluate responses in order, collecting entries, and break
out the moment one is solved.  A `.error` from `evaluate_response` is an
exception crashing the driver (there is no try/except in
`evolutionary_method`). -/
def genEval (lit : LitEval) (execC : ExecSem) (task : TaskData) :
    List String → Except String (List EvalEntry × Bool)
  | [] => .ok ([], false)
  | r :: rs =>
    match evaluate_response lit execC r task with
    | .error e => .error e
    | .ok v =>
      let entry : EvalEntry := ⟨r, v.code, v.correctness + v.avg_pixel, v.results⟩
      if v.solved then .ok ([entry], true)
      else
        match genEval lit execC task rs with
        | .error e => .error e
        | .ok (es, s) => .ok (entry :: es, s)

/-- The log of one generation: the prompt used, the entries evaluated, and
the `top_responses` retained afterwards (empty when the generation exited
early on a solve). -/
structure GenLog where
  prompt : String
  evals : List EvalEntry
  retained : List EvalEntry

/-- The `while not task_solved and i < max_tries` loop of
`evolutionary_method` (main.py lines 190-252), recursing on the remaining
tries and instrumented with a `GenLog` trace (the Python writes the same
data to the log file).  The response oracle `query` stands for the external
`query_gpt4o` calls: candidate `k` of generation `i` is `query i k`. -/
def evoLoop (P : Prompts) (lit : LitEval) (execC : ExecSem) (query : Nat → Nat → String)
    (task : TaskData) : Nat → Nat → List EvalEntry → Except String (Bool × List GenLog)
  | _, 0, _ => .ok (false, [])
  | i, Nat.succ rem, top =>
    let prompt :=
      if i = 0 then construct_initial_prompt task
      else construct_initial_prompt task ++ "\n\n" ++ construct_funsearch_prompt P top
    let responses := (List.range programs_per_gen).map (query i)
    match genEval lit execC task responses with
    | .error e => .error e
    | .ok (evals, solved) =>
      if solved then .ok (true, [⟨prompt, evals, []⟩])
      else
        let newTop := (sortDescK EvalEntry.score evals).take 2
        match evoLoop P lit execC query task (i + 1) rem newTop with
        | .error e => .error e
        | .ok (b, rest) => .ok (b, ⟨prompt, evals, newTop⟩ :: rest)

/-- `evolutionary_method` (main.py lines 180-255): its boolean return value
together with the per-generation trace. -/
def evolutionary_method (P : Prompts) (lit : LitEval) (execC : ExecSem)
    (query : Nat → Nat → String) (task : TaskData) : Except String (Bool × List GenLog) :=
  evoLoop P lit execC query task 0 max_tries []

/-- The evaluation result is a returned verdict with `solved == False`. -/
def okUnsolved (r : Except String Verdict) : Bool :=
  match r with
  | .ok v => !v.solved
  | .error _ => false

/-- The evaluation result is a returned verdict with `solved == True`. -/
def okSolved (r : Except String Verdict) : Bool :=
  match r with
  | .ok v => v.solved
  | .error _ => false

/-- A positive-area rectangular grid — the spec's Grid data model (§3). -/
def RectPos (g : List (List Int)) : Prop :=
  0 < g.length ∧ 0 < g.headI.length ∧ ∀ r ∈ g, r.length = g.headI.length

instance (g : List (List Int)) : Decidable (RectPos g) := by
  unfold RectPos; infer_instance

/-- `a[i][j]` of a JSON grid with Python-like total default indexing (used
only at in-range positions in the statements below). -/
def gridCell (a : List (List Int)) (i j : Nat) : Int :=
  (a.getD i []).getD j 0

/-- The number of positions `(i, j)`, `i < rows(a)`, `j < cols(a)`, where
`a` and `b` agree — the count accumulated by the loops of
`pixel_correctness`. -/
def matchCount (a b : List (List Int)) : Nat :=
  (List.range a.length).foldl
    (fun acc i =>
      (List.range a.headI.length).foldl
        (fun acc2 j => if gridCell a i j == gridCell b i j then acc2 + 1 else acc2)
        acc)
    0

/-- The number of training pairs whose expected output the transform
reproduces exactly (the `correct_count` of the training loop). -/
def trainMatchCount (t : TransformFn) (pairs : List (List (List Int) × List (List Int))) : Nat :=
  (pairs.filter (fun p =>
    match t (Grid.toVal p.1) with
    | .ok v => PyVal.beq v (Grid.toVal p.2)
    | .error _ => false)).length

/-- The sum of per-pair pixel-correctness scores over the training pairs
(the `pixel_correctness_sum` of the training loop; pairs on which the
transform or the scorer would raise contribute 0, a case excluded by the
hypotheses wherever this is used). -/
def trainPixSum (t : TransformFn) (pairs : List (List (List Int) × List (List Int))) : ℚ :=
  (pairs.map (fun p =>
    match t (Grid.toVal p.1) with
    | .ok v =>
      match pixel_correctness v (Grid.toVal p.2) with
      | .ok q => q
      | .error _ => 0
    | .error _ => 0)).sum

/-- Consecutive prompt chaining: each generation after the first is
prompted with the task examples followed by the funsearch block built from
the previous generation's retained entries. -/
def chainedPrompts (P : Prompts) (task : TaskData) : List GenLog → Prop
  | a :: b :: rest =>
    b.prompt = construct_initial_prompt task ++ "\n\n" ++ construct_funsearch_prompt P a.retained
      ∧ chainedPrompts P task (b :: rest)
  | _ => True

/-- Stable descending order on index-tagged entries: strictly larger score
first, and original position order on equal scores. -/
def stableDescKey (a b : Nat × EvalEntry) : Prop :=
  b.2.score < a.2.score ∨ (a.2.score = b.2.score ∧ a.1 ≤ b.1)

mutual

theorem PyVal.beq_iff : (a b : PyVal) → (PyVal.beq a b = true ↔ a = b)
  | .none, .none => by simp [PyVal.beq]
  | .none, .int _ => by simp [PyVal.beq]
  | .none, .list _ => by simp [PyVal.beq]
  | .int _, .none => by simp [PyVal.beq]
  | .int a, .int b => by simp [PyVal.beq]
  | .int _, .list _ => by simp [PyVal.beq]
  | .list _, .none => by simp [PyVal.beq]
  | .list _, .int _ => by simp [PyVal.beq]
  | .list xs, .list ys => by simp [PyVal.beq, PyVal.beqList_iff xs ys]
termination_by structural a => a

theorem PyVal.beqList_iff : (xs ys : List PyVal) → (PyVal.beqList xs ys = true ↔ xs = ys)
  | [], [] => by simp [PyVal.beqList]
  | [], _ :: _ => by simp [PyVal.beqList]
  | _ :: _, [] => by simp [PyVal.beqList]
  | x :: xs, y :: ys => by
    simp [PyVal.beqList, PyVal.beq_iff x y, PyVal.beqList_iff xs ys]
termination_by structural a => a

end

theorem PyVal.beq_refl (a : PyVal) : PyVal.beq a a = true :=
  (PyVal.beq_iff a a).mpr rfl

theorem matchesAt_iff (pat s : List Char) (i : Nat) :
    matchesAt pat s i = true ↔ occursAt pat s i := by
  simp [matchesAt, occursAt]

theorem occursAt_lt_length {pat s : List Char} {i : Nat} (hp : pat ≠ [])
    (h : occursAt pat s i) : i < s.length := by
  by_contra hi
  push_neg at hi
  rw [occursAt, List.drop_eq_nil_of_le hi] at h
  simp at h
  exact hp h

theorem findUp_eq_some {pat s : List Char} :
    ∀ {fuel i j : Nat}, findUp pat s i fuel = some j →
      i ≤ j ∧ occursAt pat s j ∧ ∀ m, i ≤ m → m < j → ¬occursAt pat s m := by
  intro fuel
  induction fuel with
  | zero => intro i j h; simp [findUp] at h
  | succ f ih =>
    intro i j h
    rw [findUp] at h
    by_cases hm : matchesAt pat s i = true
    · rw [if_pos hm] at h
      cases h
      exact ⟨le_refl _, (matchesAt_iff _ _ _).mp hm, fun m h1 h2 => absurd h1 (by omega)⟩
    · rw [if_neg hm] at h
      obtain ⟨h1, h2, h3⟩ := ih h
      refine ⟨by omega, h2, fun m hm1 hm2 => ?_⟩
      rcases Nat.eq_or_lt_of_le hm1 with he | hl
      · rw [← he]; rw [matchesAt_iff] at hm; exact hm
      · exact h3 m hl hm2

theorem findUp_eq_none {pat s : List Char} :
    ∀ {fuel i : Nat}, findUp pat s i fuel = Option.none →
      ∀ m, i ≤ m → m < i + fuel → ¬occursAt pat s m := by
  intro fuel
  induction fuel with
  | zero => intro i _ m h1 h2; omega
  | succ f ih =>
    intro i h m h1 h2
    rw [findUp] at h
    by_cases hm : matchesAt pat s i = true
    · rw [if_pos hm] at h; cases h
    · rw [if_neg hm] at h
      rcases Nat.eq_or_lt_of_le h1 with he | hl
      · rw [← he]; rw [matchesAt_iff] at hm; exact hm
      · exact ih h m hl (by omega)

theorem findFrom_eq_some {pat s : List Char} {start j : Nat}
    (h : findFrom pat s start = some j) :
    start ≤ j ∧ occursAt pat s j ∧ ∀ m, start ≤ m → m < j → ¬occursAt pat s m :=
  findUp_eq_some h

theorem findFrom_eq_none {pat s : List Char} {start : Nat} (hp : pat ≠ [])
    (h : findFrom pat s start = Option.none) :
    ∀ m, start ≤ m → ¬occursAt pat s m := by
  intro m h1 hocc
  have hm := occursAt_lt_length hp hocc
  exact findUp_eq_none h m h1 (by omega) hocc

theorem rfindDown_eq_some {pat s : List Char} :
    ∀ {i j : Nat}, rfindDown pat s i = some j →
      j ≤ i ∧ occursAt pat s j ∧ ∀ m, j < m → m ≤ i → ¬occursAt pat s m := by
  intro i
  induction i with
  | zero =>
    intro j h
    rw [rfindDown] at h
    by_cases hm : matchesAt pat s 0 = true
    · rw [if_pos hm] at h; cases h
      exact ⟨le_refl _, (matchesAt_iff _ _ _).mp hm, fun m h1 h2 => by omega⟩
    · rw [if_neg hm] at h; cases h
  | succ n ih =>
    intro j h
    rw [rfindDown] at h
    by_cases hm : matchesAt pat s (n + 1) = true
    · rw [if_pos hm] at h; cases h
      exact ⟨le_refl _, (matchesAt_iff _ _ _).mp hm, fun m h1 h2 => by omega⟩
    · rw [if_neg hm] at h
      obtain ⟨h1, h2, h3⟩ := ih h
      refine ⟨by omega, h2, fun m hm1 hm2 => ?_⟩
      rcases Nat.eq_or_lt_of_le hm2 with he | hl
      · rw [he]; rw [matchesAt_iff] at hm; exact hm
      · exact h3 m hm1 (by omega)

theorem rfindDown_eq_none {pat s : List Char} :
    ∀ {i : Nat}, rfindDown pat s i = Option.none → ∀ m, m ≤ i → ¬occursAt pat s m := by
  intro i
  induction i with
  | zero =>
    intro h m h1
    rw [rfindDown] at h
    by_cases hm : matchesAt pat s 0 = true
    · rw [if_pos hm] at h; cases h
    · rw [if_neg hm] at h
      interval_cases m
      rw [matchesAt_iff] at hm; exact hm
  | succ n ih =>
    intro h m h1
    rw [rfindDown] at h
    by_cases hm : matchesAt pat s (n + 1) = true
    · rw [if_pos hm] at h; cases h
    · rw [if_neg hm] at h
      rcases Nat.eq_or_lt_of_le h1 with he | hl
      · rw [he]; rw [matchesAt_iff] at hm; exact hm
      · exact ih h m (by omega)

theorem rfindL_eq_some {pat s : List Char} {j : Nat} (hp : pat ≠ [])
    (h : rfindL pat s = some j) :
    occursAt pat s j ∧ ∀ m, j < m → ¬occursAt pat s m := by
  obtain ⟨h1, h2, h3⟩ := rfindDown_eq_some h
  refine ⟨h2, fun m hm hocc => ?_⟩
  have := occursAt_lt_length hp hocc
  exact h3 m hm (by omega) hocc

theorem rfindL_eq_none {pat s : List Char} (hp : pat ≠ [])
    (h : rfindL pat s = Option.none) : ∀ m, ¬occursAt pat s m := by
  intro m hocc
  have := occursAt_lt_length hp hocc
  exact rfindDown_eq_none h m (by omega) hocc

theorem foldlM_ok {α β : Type} (f : β → α → Except String β) (g : β → α → β) :
    ∀ (l : List α), (∀ b a, a ∈ l → f b a = .ok (g b a)) →
      ∀ b0, l.foldlM f b0 = .ok (l.foldl g b0) := by
  intro l
  induction l with
  | nil => intro _ b0; rfl
  | cons x xs ih =>
    intro h b0
    rw [List.foldlM_cons, h b0 x (by simp), List.foldl_cons]
    exact ih (fun b a ha => h b a (by simp [ha])) (g b0 x)

theorem pyIndex_list {xs : List PyVal} {i : Nat} (h : i < xs.length) :
    pyIndex (.list xs) i = .ok (xs.getD i PyVal.none) := by
  rw [pyIndex, List.getD_eq_getElem?_getD, List.getElem?_eq_getElem h]
  simp [← List.get?_eq_getElem?]
  rw [List.get?_eq_getElem?, List.getElem?_eq_getElem h]

theorem toVal_getD {a : List (List Int)} {i : Nat} (h : i < a.length) :
    (a.map (fun r => PyVal.list (r.map PyVal.int))).getD i PyVal.none =
      PyVal.list ((a.getD i []).map PyVal.int) := by
  rw [List.getD_eq_getElem?_getD, List.getD_eq_getElem?_getD, List.getElem?_map,
    List.getElem?_eq_getElem h]
  rfl

theorem intRow_getD {r : List Int} {j : Nat} (h : j < r.length) :
    (r.map PyVal.int).getD j PyVal.none = PyVal.int (r.getD j 0) := by
  rw [List.getD_eq_getElem?_getD, List.getD_eq_getElem?_getD, List.getElem?_map,
    List.getElem?_eq_getElem h]
  rfl

theorem pcCell_grid {a b : List (List Int)} {i j : Nat}
    (hia : i < a.length) (hib : i < b.length)
    (hja : j < (a.getD i []).length) (hjb : j < (b.getD i []).length) :
    pcCell (Grid.toVal a) (Grid.toVal b) i j = .ok (gridCell a i j == gridCell b i j) := by
  have h1 : pyIndex (Grid.toVal a) i = .ok (PyVal.list ((a.getD i []).map PyVal.int)) := by
    rw [Grid.toVal, pyIndex_list (by simpa using hia), toVal_getD hia]
  have h2 : pyIndex (PyVal.list ((a.getD i []).map PyVal.int)) j =
      .ok (PyVal.int ((a.getD i []).getD j 0)) := by
    rw [pyIndex_list (by simpa using hja), intRow_getD hja]
  have h3 : pyIndex (Grid.toVal b) i = .ok (PyVal.list ((b.getD i []).map PyVal.int)) := by
    rw [Grid.toVal, pyIndex_list (by simpa using hib), toVal_getD hib]
  have h4 : pyIndex (PyVal.list ((b.getD i []).map PyVal.int)) j =
      .ok (PyVal.int ((b.getD i []).getD j 0)) := by
    rw [pyIndex_list (by simpa using hjb), intRow_getD hjb]
  simp only [pcCell, h1, h2, h3, h4]
  simp [PyVal.beq, gridCell]

theorem pcLoop_grid {a b : List (List Int)} (hlen : a.length = b.length)
    (hrowa : ∀ r ∈ a, r.length = a.headI.length)
    (hrowb : ∀ r ∈ b, r.length = a.headI.length) :
    pcLoop (Grid.toVal a) (Grid.toVal b) a.length a.headI.length = .ok (matchCount a b) := by
  rw [pcLoop, matchCount]
  apply foldlM_ok
  intro acc i hi
  rw [List.mem_range] at hi
  apply foldlM_ok
  intro acc2 j hj
  rw [List.mem_range] at hj
  have hia : i < a.length := hi
  have hib : i < b.length := hlen ▸ hi
  have hmema : a.getD i [] ∈ a := by
    have he : a.getD i [] = a.get ⟨i, hia⟩ := by
      rw [List.getD_eq_getElem?_getD, List.getElem?_eq_getElem hia]; rfl
    rw [he]; exact a.get_mem i hia
  have hmemb : b.getD i [] ∈ b := by
    have he : b.getD i [] = b.get ⟨i, hib⟩ := by
      rw [List.getD_eq_getElem?_getD, List.getElem?_eq_getElem hib]; rfl
    rw [he]; exact b.get_mem i hib
  have hja : j < (a.getD i []).length := by
    rw [hrowa _ hmema]
    exact hj
  have hjb : j < (b.getD i []).length := by
    rw [hrowb _ hmemb]
    exact hj
  rw [pcCell_grid hia hib hja hjb]

theorem pyLen_toVal (a : List (List Int)) : pyLen (Grid.toVal a) = .ok a.length := by
  simp [Grid.toVal, pyLen]

theorem pyIndex_toVal_zero {a : List (List Int)} (h : 0 < a.length) :
    pyIndex (Grid.toVal a) 0 = .ok (PyVal.list (a.headI.map PyVal.int)) := by
  rw [Grid.toVal, pyIndex_list (by simpa using h), toVal_getD h]
  congr 1
  cases a with
  | nil => simp at h
  | cons r rest => rfl

theorem pixel_correctness_grid (a b : List (List Int)) (ha : RectPos a) (hb : RectPos b) :
    pixel_correctness (Grid.toVal a) (Grid.toVal b) =
      if a.length = b.length ∧ a.headI.length = b.headI.length
      then .ok ((matchCount a b : ℚ) / ((a.length * a.headI.length : Nat) : ℚ))
      else .ok 0 := by
  obtain ⟨hapos, hacols, harect⟩ := ha
  obtain ⟨hbpos, hbcols, hbrect⟩ := hb
  by_cases hlen : a.length = b.length
  · by_cases hcols : a.headI.length = b.headI.length
    · have hrowb' : ∀ r ∈ b, r.length = a.headI.length := fun r hr => by
        rw [hbrect r hr, ← hcols]
      have hloop := pcLoop_grid hlen harect hrowb'
      have htot : ¬(a.length * a.headI.length = 0) := by
        have := Nat.mul_pos hapos hacols; omega
      rw [if_pos ⟨hlen, hcols⟩]
      simp only [pixel_correctness, pyLen_toVal, pyIndex_toVal_zero hapos,
        pyIndex_toVal_zero hbpos]
      simp only [pyLen, List.length_map]
      rw [if_neg (by simp [hlen]), if_neg (by simp [hcols])]
      simp only [hloop]
      rw [if_neg htot]
    · rw [if_neg (by simp [hcols])]
      simp only [pixel_correctness, pyLen_toVal, pyIndex_toVal_zero hapos,
        pyIndex_toVal_zero hbpos]
      simp only [pyLen, List.length_map]
      rw [if_neg (by simp [hlen]), if_pos hcols]
  · rw [if_neg (by simp [hlen])]
    simp only [pixel_correctness, pyLen_toVal]
    rw [if_pos hlen]

theorem foldl_count_true {α : Type} (p : α → Bool) :
    ∀ (l : List α), (∀ x ∈ l, p x = true) → ∀ acc : Nat,
      l.foldl (fun a x => if p x then a + 1 else a) acc = acc + l.length := by
  intro l
  induction l with
  | nil => intro _ acc; simp
  | cons x xs ih =>
    intro h acc
    rw [List.foldl_cons, if_pos (h x (by simp))]
    rw [ih (fun y hy => h y (by simp [hy])) (acc + 1)]
    simp; omega

theorem foldl_add_const {α : Type} (c : Nat) :
    ∀ (l : List α) (acc : Nat), l.foldl (fun a _ => a + c) acc = acc + l.length * c := by
  intro l
  induction l with
  | nil => intro acc; simp
  | cons x xs ih =>
    intro acc
    rw [List.foldl_cons, ih (acc + c)]
    simp [Nat.succ_mul]; omega

theorem matchCount_self (a : List (List Int)) :
    matchCount a a = a.length * a.headI.length := by
  rw [matchCount]
  have hinner : ∀ (i : Nat) (acc : Nat),
      (List.range a.headI.length).foldl
        (fun acc2 j => if gridCell a i j == gridCell a i j then acc2 + 1 else acc2) acc
        = acc + a.headI.length := by
    intro i acc
    have := foldl_count_true (fun j => gridCell a i j == gridCell a i j)
      (List.range a.headI.length) (fun j _ => by simp) acc
    simpa using this
  have houter : ∀ (l : List Nat) (acc : Nat),
      l.foldl (fun acc i =>
        (List.range a.headI.length).foldl
          (fun acc2 j => if gridCell a i j == gridCell a i j then acc2 + 1 else acc2) acc) acc
        = acc + l.length * a.headI.length := by
    intro l
    induction l with
    | nil => intro acc; simp
    | cons x xs ih =>
      intro acc
      rw [List.foldl_cons, hinner x acc, ih]
      simp [Nat.succ_mul]; omega
  simpa using houter (List.range a.length) 0

theorem pixel_correctness_self (a : List (List Int)) (ha : RectPos a) :
    pixel_correctness (Grid.toVal a) (Grid.toVal a) = .ok 1 := by
  rw [pixel_correctness_grid a a ha ha, if_pos ⟨rfl, rfl⟩, matchCount_self]
  congr 1
  have hne : ((a.length * a.headI.length : Nat) : ℚ) ≠ 0 := by
    have h1 : 0 < a.length * a.headI.length := Nat.mul_pos ha.1 ha.2.1
    exact Nat.cast_ne_zero.mpr (by omega)
  exact div_self hne

theorem pixel_correctness_grid_ok (a b : List (List Int)) (ha : RectPos a) (hb : RectPos b) :
    ∃ q : ℚ, pixel_correctness (Grid.toVal a) (Grid.toVal b) = .ok q := by
  rw [pixel_correctness_grid a b ha hb]
  by_cases h : a.length = b.length ∧ a.headI.length = b.headI.length
  · rw [if_pos h]; exact ⟨_, rfl⟩
  · rw [if_neg h]; exact ⟨0, rfl⟩

theorem evalTrainLoop_inl_unsolved (t : TransformFn) (code : String) :
    ∀ (pairs : List (List (List Int) × List (List Int))) (i : Nat) (res : String)
      (cc : Nat) (ps : ℚ) (v : Verdict),
      evalTrainLoop t code pairs i res cc ps = .ok (.inl v) → v.solved = false := by
  intro pairs
  induction pairs with
  | nil =>
    intro i res cc ps v h
    simp [evalTrainLoop] at h
  | cons p rest ih =>
    intro i res cc ps v h
    obtain ⟨tin, tout⟩ := p
    simp only [evalTrainLoop] at h
    split at h
    · simp only [Except.ok.injEq, Sum.inl.injEq] at h
      rw [← h]
    · split at h
      · split at h
        · simp at h
        · exact ih _ _ _ _ _ h
      · split at h
        · simp at h
        · split at h
          · simp at h
          · exact ih _ _ _ _ _ h

theorem fmtValRows_toVal (g : List (List Int)) :
    fmtValRows (Grid.toVal g) =
      .ok (String.intercalate ",\n"
        ((g.map (fun r => PyVal.list (r.map PyVal.int))).map PyVal.pyStr)) := rfl

theorem evalTrainLoop_abort (t : TransformFn) (code : String) (e : String)
    (bad : List (List Int) × List (List Int)) (post : List (List (List Int) × List (List Int)))
    (hbad : t (Grid.toVal bad.1) = .error e) :
    ∀ (pre : List (List (List Int) × List (List Int))),
      (∀ p ∈ pre, ∃ g, t (Grid.toVal p.1) = .ok (Grid.toVal g) ∧ RectPos g ∧ RectPos p.2) →
      ∀ (i : Nat) (res : String) (cc : Nat) (ps : ℚ),
        evalTrainLoop t code (pre ++ bad :: post) i res cc ps =
          .ok (.inl ⟨false, code,
            "\nError: Transform function failed to run with error: " ++ e, -1, -1⟩) := by
  intro pre
  induction pre with
  | nil =>
    intro _ i res cc ps
    obtain ⟨tin, tout⟩ := bad
    simp only [List.nil_append, evalTrainLoop]
    simp only [hbad]
  | cons p pre' ih =>
    intro hpre i res cc ps
    obtain ⟨tin, tout⟩ := p
    obtain ⟨g, hg, hgr, hor⟩ := hpre (tin, tout) (by simp)
    obtain ⟨q, hq⟩ := pixel_correctness_grid_ok g tout hgr hor
    simp only [List.cons_append, evalTrainLoop, hg]
    by_cases hbq : PyVal.beq (Grid.toVal g) (Grid.toVal tout) = true
    · rw [if_pos hbq]
      simp only [hq]
      exact ih (fun p hp => hpre p (by simp [hp])) _ _ _ _
    · rw [if_neg hbq]
      simp only [fmtValRows_toVal, hq]
      exact ih (fun p hp => hpre p (by simp [hp])) _ _ _ _

theorem evalTrainLoop_full (t : TransformFn) (code : String) :
    ∀ (pairs : List (List (List Int) × List (List Int))),
      (∀ p ∈ pairs, ∃ g, t (Grid.toVal p.1) = .ok (Grid.toVal g) ∧ RectPos g ∧ RectPos p.2) →
      ∀ (i : Nat) (res : String) (cc : Nat) (ps : ℚ), ∃ res' : String,
        evalTrainLoop t code pairs i res cc ps =
          .ok (.inr (res', cc + trainMatchCount t pairs, ps + trainPixSum t pairs)) := by
  intro pairs
  induction pairs with
  | nil =>
    intro _ i res cc ps
    exact ⟨res, by simp [evalTrainLoop, trainMatchCount, trainPixSum]⟩
  | cons p rest ih =>
    intro hall i res cc ps
    obtain ⟨tin, tout⟩ := p
    obtain ⟨g, hg, hgr, hor⟩ := hall (tin, tout) (by simp)
    obtain ⟨q, hq⟩ := pixel_correctness_grid_ok g tout hgr hor
    have htp : trainPixSum t ((tin, tout) :: rest) = q + trainPixSum t rest := by
      simp [trainPixSum, hg, hq]
    by_cases hbq : PyVal.beq (Grid.toVal g) (Grid.toVal tout) = true
    · have htm : trainMatchCount t ((tin, tout) :: rest) = trainMatchCount t rest + 1 := by
        simp [trainMatchCount, List.filter_cons, hg, hbq]
      obtain ⟨res', hres'⟩ := ih (fun p hp => hall p (by simp [hp])) (i + 1)
        (res ++ "Result for example " ++ toString i ++ ":\n"
          ++ "✓ Transformation matches expected output!\n" ++ "\n") (cc + 1) (ps + q)
      refine ⟨res', ?_⟩
      simp only [evalTrainLoop, hg]
      rw [if_pos hbq]
      simp only [hq]
      rw [htm, htp, hres']
      simp only [Except.ok.injEq, Sum.inr.injEq, Prod.mk.injEq, true_and]
      constructor
      · omega
      · ring
    · have htm : trainMatchCount t ((tin, tout) :: rest) = trainMatchCount t rest := by
        simp [trainMatchCount, List.filter_cons, hg, hbq]
      obtain ⟨res', hres'⟩ := ih (fun p hp => hall p (by simp [hp])) (i + 1)
        (res ++ "Result for example " ++ toString i ++ ":\n"
          ++ "✗ Transformation does not match expected output.\n"
          ++ "\nInput Grid:\n[" ++ fmtGrid tin ++ "]\n"
          ++ "\nExpected Output Grid:\n[" ++ fmtGrid tout ++ "]\n"
          ++ "\nIncorrect Resulting Output Grid:\n["
          ++ String.intercalate ",\n"
            ((g.map (fun r => PyVal.list (r.map PyVal.int))).map PyVal.pyStr)
          ++ "]\n" ++ "\n") cc (ps + q)
      refine ⟨res', ?_⟩
      simp only [evalTrainLoop, hg]
      rw [if_neg hbq]
      simp only [fmtValRows_toVal, hq]
      rw [htm, htp, hres']
      simp only [Except.ok.injEq, Sum.inr.injEq, Prod.mk.injEq, true_and]
      ring

/-- C5 (confirmed): for non-empty (positive-area) rectangular grids,
`pixel_correctness` returns 0 when the dimensions differ and otherwise the
count of agreeing cells divided by rows×cols; in particular it returns 1 on
two copies of the same grid. -/
theorem C5_pixel_correctness_fraction (a b : List (List Int)) (ha : RectPos a) (hb : RectPos b) :
    (¬(a.length = b.length ∧ a.headI.length = b.headI.length) →
      pixel_correctness (Grid.toVal a) (Grid.toVal b) = .ok 0)
    ∧ (a.length = b.length ∧ a.headI.length = b.headI.length →
      pixel_correctness (Grid.toVal a) (Grid.toVal b) =
        .ok ((matchCount a b : ℚ) / ((a.length * a.headI.length : Nat) : ℚ)))
    ∧ pixel_correctness (Grid.toVal a) (Grid.toVal a) = .ok 1 := by
  refine ⟨?_, ?_, pixel_correctness_self a ha⟩
  · intro h
    rw [pixel_correctness_grid a b ha hb, if_neg h]
  · intro h
    rw [pixel_correctness_grid a b ha hb, if_pos h]

/-- C5 witness: the theorem applied to the concrete grids [[1,2],[3,4]] and
[[1]] (mismatched dimensions) and to [[1,2],[3,4]] against itself. -/
theorem C5_pixel_correctness_fraction_witness :
    pixel_correctness (Grid.toVal [[1, 2], [3, 4]]) (Grid.toVal [[1]]) = .ok 0
    ∧ pixel_correctness (Grid.toVal [[1, 2], [3, 4]]) (Grid.toVal [[1, 2], [3, 4]]) = .ok 1 :=
  ⟨(C5_pixel_correctness_fraction [[1, 2], [3, 4]] [[1]] (by decide) (by decide)).1 (by decide),
   (C5_pixel_correctness_fraction [[1, 2], [3, 4]] [[1, 2], [3, 4]] (by decide) (by decide)).2.2⟩

/-- C6 counterexample: no rectangularity validation exists — a ragged
extracted grid reaches `pixel_correctness`, which indexes past the short
row's end, and the IndexError propagates out of `evaluate_response`. -/
theorem C6_counterexample :
    evaluate_response
      (fun s => if s = "[[1, 2], [3]]"
        then .ok (PyVal.list [PyVal.list [.int 1, .int 2], PyVal.list [.int 3]])
        else .error "ParseError")
      (fun _ ns => .ok ns)
      "<output>[[1, 2], [3]]</output>"
      ⟨[], [[9]], [[1, 2], [3, 4]]⟩
      = .error "IndexError: list index out of range" := rfl

/-- C6 (corrected): no component rejects ragged or empty grids —
`extract_array` passes any parsed value through unvalidated, and
`pixel_correctness`, guarding only row counts and first-row lengths,
raises IndexError on a ragged value whose first rows agree and
ZeroDivisionError on equal zero-area grids. -/
theorem C6_amended_no_validation :
    (∀ v : PyVal, extract_array (fun _ => .ok v) "<output>x</output>" = .ok v)
    ∧ pixel_correctness (PyVal.list [PyVal.list [.int 0], PyVal.list []])
        (Grid.toVal [[0], [0]]) = .error "IndexError: list index out of range"
    ∧ pixel_correctness (Grid.toVal [[]]) (Grid.toVal [[]])
        = .error "ZeroDivisionError: division by zero" :=
  ⟨fun _ => rfl, rfl, rfl⟩

/-- C1 counterexample: a response with an `<output>` tag but no closing
`</output>` makes `evaluate_response` raise the ValueError from
`extract_array` instead of returning an unsolved verdict. -/
theorem C1_counterexample :
    evaluate_response (fun _ => .error "ParseError") (fun _ ns => .ok ns)
      "<output> [[1]]" ⟨[([[1]], [[1]])], [[1]], [[1]]⟩
      = .error "No closing </output> tag found in file" := rfl

/-- C1 (corrected): a missing code fence does resolve to an unsolved
verdict with -1 sentinels, but a missing closing `</output>` tag raises an
uncaught ValueError, a load failure (no `transform` defined) raises an
uncaught ValueError at line 87, and unparsable `<output>` content yields
None whose scoring raises an uncaught TypeError — all three propagate out
of `evaluate_response`. -/
theorem C1_amended_error_paths :
    (∀ (lit : LitEval) (execC : ExecSem) (response : String) (task : TaskData),
      containsSub response "<output>" = false →
      rfindL "```python".data response.data = Option.none →
      evaluate_response lit execC response task =
        .ok ⟨false, "",
          "\nError: Could not find Python code between triple backticks with error: "
            ++ "exceptions must derive from BaseException", -1, -1⟩)
    ∧ evaluate_response (fun _ => .error "x") (fun _ ns => .ok ns) "```python\nx = 1\n```"
        ⟨[([[1]], [[1]])], [[1]], [[1]]⟩ = .error "No transform function found in the code"
    ∧ evaluate_response (fun _ => .error "invalid syntax") (fun _ ns => .ok ns)
        "<output>oops</output>" ⟨[([[1]], [[1]])], [[1]], [[1]]⟩
      = .error "TypeError: object of type 'NoneType' has no len()"
    ∧ (∀ (lit : LitEval) (execC : ExecSem) (response : String) (task : TaskData)
        (code e : String),
      containsSub response "<output>" = false →
      extract_program response = .ok code →
      execC code emptyNS = .error e →
      evaluate_response lit execC response task = .error e) := by
  refine ⟨?_, rfl, rfl, ?_⟩
  · intro lit execC response task hng hfence
    rw [evaluate_response, if_neg (by simp [hng])]
    simp only [extract_program, hfence]
  · intro lit execC response task code e hng hx hexec
    rw [evaluate_response, if_neg (by simp [hng])]
    simp only [hx, load_transform_function, hexec]

/-- C1 witness: the general no-fence branch of the amended theorem applied
to a concrete fence-less, tag-less response. -/
theorem C1_amended_error_paths_witness :
    evaluate_response (fun _ => .error "x") (fun _ ns => .ok ns) "say nothing"
      ⟨[([[1]], [[1]])], [[1]], [[1]]⟩ =
      .ok ⟨false, "",
        "\nError: Could not find Python code between triple backticks with error: "
          ++ "exceptions must derive from BaseException", -1, -1⟩ :=
  C1_amended_error_paths.1 _ _ "say nothing" _ rfl rfl

/-- C7 (confirmed): when a response contains `<output>`, the verdict is
computed by the grid branch alone — it does not depend on the executor at
all (so no code is ever loaded or run), and the verdict carries no
extracted code and the transduction marker as its report, even if the
response also contains a valid code fence. -/
theorem C7_grid_tag_precedence (lit : LitEval) (e1 e2 : ExecSem) (response : String)
    (task : TaskData) (h : containsSub response "<output>" = true) :
    evaluate_response lit e1 response task = evaluate_response lit e2 response task
    ∧ ∀ v : Verdict, evaluate_response lit e1 response task = .ok v →
        v.code = "" ∧ v.results = "NOT_APPLICABLE_FOR_TRANSDUCTION" := by
  constructor
  · rw [evaluate_response, evaluate_response, if_pos (by simp [h]), if_pos (by simp [h])]
  · intro v hv
    rw [evaluate_response, if_pos (by simp [h])] at hv
    cases hx : extract_array lit response with
    | error e => rw [hx] at hv; exact (Except.noConfusion hv)
    | ok ex =>
      simp only [hx] at hv
      cases hpc : pixel_correctness ex (Grid.toVal task.test_output) with
      | error e => rw [hpc] at hv; exact (Except.noConfusion hv)
      | ok pc =>
        simp only [hpc] at hv
        injection hv with h1
        rw [← h1]
        exact ⟨rfl, rfl⟩

/-- C7 witness: a response holding both a grid tag and a valid code fence
evaluates identically under two executors that differ on every program. -/
theorem C7_grid_tag_precedence_witness :
    evaluate_response (fun _ => .error "x") (fun _ ns => .ok ns)
      "<output>[[1]]</output> ```python\nq\n```" ⟨[], [[1]], [[1]]⟩ =
    evaluate_response (fun _ => .error "x")
      (fun _ ns => .ok ⟨ns.counter, some (fun _ => .error "boom")⟩)
      "<output>[[1]]</output> ```python\nq\n```" ⟨[], [[1]], [[1]]⟩ := by
  exact (C7_grid_tag_precedence _ _ _ _ _ (by rfl)).1

/-- C2 (confirmed): a verdict with `solved = true` means the extracted grid
(grid modality) or the transform's output on the test input (code
modality) is exactly the expected test output. -/
theorem C2_solved_implies_exact (lit : LitEval) (execC : ExecSem) (response : String)
    (task : TaskData) (v : Verdict)
    (hok : evaluate_response lit execC response task = .ok v) (hs : v.solved = true) :
    (containsSub response "<output>" = true →
      extract_array lit response = .ok (Grid.toVal task.test_output))
    ∧ (containsSub response "<output>" = false →
      ∃ (code : String) (transform : TransformFn),
        extract_program response = .ok code
        ∧ load_transform_function execC code = .ok transform
        ∧ transform (Grid.toVal task.test_input) = .ok (Grid.toVal task.test_output)) := by
  constructor
  · intro hg
    rw [evaluate_response, if_pos (by simp [hg])] at hok
    cases hx : extract_array lit response with
    | error e => rw [hx] at hok; exact (Except.noConfusion hok)
    | ok ex =>
      simp only [hx] at hok
      cases hpc : pixel_correctness ex (Grid.toVal task.test_output) with
      | error e => rw [hpc] at hok; exact (Except.noConfusion hok)
      | ok pc =>
        simp only [hpc] at hok
        injection hok with h1
        rw [← h1] at hs
        have hbq := (PyVal.beq_iff ex (Grid.toVal task.test_output)).mp hs
        rw [hbq]
  · intro hng
    rw [evaluate_response, if_neg (by simp [hng])] at hok
    cases hx : extract_program response with
    | error e =>
      simp only [hx] at hok
      injection hok with h1
      rw [← h1] at hs
      simp at hs
    | ok code =>
      simp only [hx] at hok
      cases hl : load_transform_function execC code with
      | error e => rw [hl] at hok; exact (Except.noConfusion hok)
      | ok transform =>
        simp only [hl] at hok
        cases hloop : evalTrainLoop transform code task.train 1 "" 0 0 with
        | error e => rw [hloop] at hok; exact (Except.noConfusion hok)
        | ok sv =>
          simp only [hloop] at hok
          cases sv with
          | inl vv =>
            simp only at hok
            injection hok with h1
            have hf := evalTrainLoop_inl_unsolved transform code task.train 1 "" 0 0 vv hloop
            rw [h1] at hf
            rw [hf] at hs
            simp at hs
          | inr acc =>
            obtain ⟨resS, cc, ps⟩ := acc
            simp only at hok
            by_cases hz : task.train.length = 0
            · rw [if_pos hz] at hok; exact (Except.noConfusion hok)
            · rw [if_neg hz] at hok
              cases htest : transform (Grid.toVal task.test_input) with
              | error e =>
                simp only [htest] at hok
                injection hok with h1
                rw [← h1] at hs
                simp at hs
              | ok output =>
                simp only [htest] at hok
                injection hok with h1
                rw [← h1] at hs
                have hbq := (PyVal.beq_iff output (Grid.toVal task.test_output)).mp hs
                exact ⟨code, transform, rfl, hl, by simp only [htest, hbq]⟩

/-- C2 witness: the theorem applied to a solved grid-modality response. -/
theorem C2_solved_implies_exact_witness :
    extract_array (fun s => if s = "[[7]]" then .ok (Grid.toVal [[7]]) else .error "bad")
      "<output>[[7]]</output>" = .ok (Grid.toVal [[7]]) :=
  (C2_solved_implies_exact
    (fun s => if s = "[[7]]" then .ok (Grid.toVal [[7]]) else .error "bad")
    (fun _ ns => .ok ns) "<output>[[7]]</output>" ⟨[], [[7]], [[7]]⟩
    ⟨true, "", "NOT_APPLICABLE_FOR_TRANSDUCTION", 1,
      ((1 : Nat) : ℚ) / ((1 * 1 : Nat) : ℚ)⟩
    rfl rfl).1 rfl

/-- C3 (confirmed): if the transform raises on one training pair — the
earlier pairs evaluating normally — the evaluator returns immediately with
`solved = false`, both sentinels -1, and a report holding only the
diagnostic for the failing pair (line 99 overwrites the report, so no
pixel-correctness contribution from any other pair survives). -/
theorem C3_abort_on_training_failure (lit : LitEval) (execC : ExecSem) (response : String)
    (task : TaskData) (code : String) (transform : TransformFn) (e : String)
    (pre post : List (List (List Int) × List (List Int)))
    (bad : List (List Int) × List (List Int))
    (hng : containsSub response "<output>" = false)
    (hx : extract_program response = .ok code)
    (hl : load_transform_function execC code = .ok transform)
    (htrain : task.train = pre ++ bad :: post)
    (hpre : ∀ p ∈ pre, ∃ g, transform (Grid.toVal p.1) = .ok (Grid.toVal g)
      ∧ RectPos g ∧ RectPos p.2)
    (hbad : transform (Grid.toVal bad.1) = .error e) :
    evaluate_response lit execC response task =
      .ok ⟨false, code,
        "\nError: Transform function failed to run with error: " ++ e, -1, -1⟩ := by
  rw [evaluate_response, if_neg (by simp [hng])]
  simp only [hx, hl, htrain]
  simp only [evalTrainLoop_abort transform code e bad post hbad pre hpre 1 "" 0 0]

/-- C3 witness: a three-pair task whose transform succeeds on the first
pair and raises on the second. -/
theorem C3_abort_on_training_failure_witness :
    evaluate_response (fun _ => .error "x")
      (fun _ ns => .ok ⟨ns.counter,
        some (fun v => if PyVal.beq v (Grid.toVal [[1]]) then .ok (Grid.toVal [[2]])
          else .error "boom")⟩)
      "```python\nd\n```"
      ⟨[([[1]], [[2]]), ([[3]], [[4]]), ([[5]], [[6]])], [[1]], [[2]]⟩ =
      .ok ⟨false, "d",
        "\nError: Transform function failed to run with error: " ++ "boom", -1, -1⟩ := by
  exact C3_abort_on_training_failure _ _ _ _ "d"
    (fun v => if PyVal.beq v (Grid.toVal [[1]]) then .ok (Grid.toVal [[2]]) else .error "boom")
    "boom" [([[1]], [[2]])] [([[5]], [[6]])] ([[3]], [[4]])
    (by rfl) (by rfl) (by rfl) (by rfl)
    (by
      intro p hp
      simp only [List.mem_singleton] at hp
      subst hp
      exact ⟨[[2]], rfl, by decide, by decide⟩)
    (by rfl)

/-- C4 (confirmed): when the transform succeeds on every training pair but
raises on the test input, the verdict is unsolved yet keeps the training
metrics — exact-match fraction and mean pixel correctness — instead of the
-1 sentinels, with the test error appended to the report. -/
theorem C4_test_failure_keeps_metrics (lit : LitEval) (execC : ExecSem) (response : String)
    (task : TaskData) (code : String) (transform : TransformFn) (e : String)
    (hng : containsSub response "<output>" = false)
    (hx : extract_program response = .ok code)
    (hl : load_transform_function execC code = .ok transform)
    (hall : ∀ p ∈ task.train, ∃ g, transform (Grid.toVal p.1) = .ok (Grid.toVal g)
      ∧ RectPos g ∧ RectPos p.2)
    (hne : task.train ≠ [])
    (htest : transform (Grid.toVal task.test_input) = .error e) :
    ∃ res : String,
      evaluate_response lit execC response task =
        .ok ⟨false, code,
          res ++ "\nError: Transform function failed to run on the test input with error: " ++ e,
          (trainMatchCount transform task.train : ℚ) / (task.train.length : ℚ),
          trainPixSum transform task.train / (task.train.length : ℚ)⟩ := by
  obtain ⟨res', hloop⟩ := evalTrainLoop_full transform code task.train hall 1 "" 0 0
  rw [Nat.zero_add, zero_add] at hloop
  refine ⟨res', ?_⟩
  rw [evaluate_response, if_neg (by simp [hng])]
  simp only [hx, hl, hloop]
  rw [if_neg (by simp [hne])]
  simp only [htest]

/-- C4 witness: a one-pair task solved on training whose transform raises
on the (different) test input. -/
theorem C4_test_failure_keeps_metrics_witness :
    ∃ res : String,
      evaluate_response (fun _ => .error "x")
        (fun _ ns => .ok ⟨ns.counter,
          some (fun v => if PyVal.beq v (Grid.toVal [[1]]) then .ok (Grid.toVal [[2]])
            else .error "boom")⟩)
        "```python\nd\n```"
        ⟨[([[1]], [[2]])], [[9]], [[2]]⟩ =
        .ok ⟨false, "d",
          res ++ "\nError: Transform function failed to run on the test input with error: "
            ++ "boom",
          (trainMatchCount
            (fun v => if PyVal.beq v (Grid.toVal [[1]]) then .ok (Grid.toVal [[2]])
              else .error "boom") [([[1]], [[2]])] : ℚ) / (([([[1]], [[2]])] : List _).length : ℚ),
          trainPixSum
            (fun v => if PyVal.beq v (Grid.toVal [[1]]) then .ok (Grid.toVal [[2]])
              else .error "boom") [([[1]], [[2]])] / (([([[1]], [[2]])] : List _).length : ℚ)⟩ := by
  exact C4_test_failure_keeps_metrics _ _ _ _ "d" _ "boom"
    (by rfl) (by rfl) (by rfl)
    (by
      intro p hp
      simp only [List.mem_singleton] at hp
      subst hp
      exact ⟨[[2]], rfl, by decide, by decide⟩)
    (by simp) (by rfl)

theorem no_fence_at_anchor_8 {s : List Char} {a : Nat}
    (h : occursAt "```python".data s a) : ¬occursAt "```".data s (a + 8) := by
  intro h3
  rw [occursAt] at h h3
  rw [show ("```python".data : List Char).length = 9 from rfl] at h
  rw [show ("```".data : List Char).length = 3 from rfl] at h3
  have hlen : ((s.drop a).take 9).length = 9 := by
    rw [h]; rfl
  have h8 : s.drop (a + 8) = (s.drop a).drop 8 := by
    rw [List.drop_drop, Nat.add_comm]
  have hsplit : s.drop (a + 8) = ((s.drop a).take 9).drop 8 ++ (s.drop a).drop 9 := by
    rw [h8]
    conv_lhs => rw [← List.take_append_drop 9 (s.drop a)]
    rw [List.drop_append_eq_append_drop, hlen]
    simp
  rw [h] at hsplit
  have hcontra : (("```".data : List Char)).head? = some 'n' := by
    rw [← h3, hsplit]
    rfl
  exact absurd hcontra (by decide)

/-- C8 (confirmed): extraction anchors on the last occurrence of the
opening fence marker and slices up to the first closing fence after it
(trimmed) — so with two opening markers it starts from the second — and it
fails with an error exactly when no opening marker exists or no closing
fence follows the anchor. -/
theorem C8_fence_anchoring (response : String) :
    (∀ code : String, extract_program response = .ok code →
      ∃ a e : Nat, occursAt "```python".data response.data a
        ∧ (∀ j, occursAt "```python".data response.data j → j ≤ a)
        ∧ occursAt "```".data response.data e ∧ a + 9 ≤ e
        ∧ (∀ j, occursAt "```".data response.data j → a + 9 ≤ j → e ≤ j)
        ∧ code = String.mk (pyStrip ((response.data.drop (a + 9)).take (e - (a + 9)))))
    ∧ (∀ msg : String, extract_program response = .error msg →
      (∀ j, ¬occursAt "```python".data response.data j)
      ∨ ∃ a : Nat, occursAt "```python".data response.data a
          ∧ (∀ j, occursAt "```python".data response.data j → j ≤ a)
          ∧ ∀ j, a + 9 ≤ j → ¬occursAt "```".data response.data j) := by
  constructor
  · intro code hc
    simp only [extract_program] at hc
    cases hr : rfindL "```python".data response.data with
    | none => rw [hr] at hc; exact (Except.noConfusion hc)
    | some a =>
      simp only [hr] at hc
      cases hf : findFrom "```".data response.data (a + 8) with
      | none => rw [hf] at hc; exact (Except.noConfusion hc)
      | some e =>
        simp only [hf] at hc
        injection hc with h1
        obtain ⟨hocc, hmax⟩ := rfindL_eq_some (by decide) hr
        obtain ⟨hge, hocc3, hmin⟩ := findFrom_eq_some hf
        have h9 : a + 9 ≤ e := by
          rcases Nat.eq_or_lt_of_le hge with heq | hlt
          · exact absurd hocc3 (heq ▸ no_fence_at_anchor_8 hocc)
          · omega
        refine ⟨a, e, hocc, ?_, hocc3, h9, ?_, h1.symm⟩
        · intro j hj
          by_contra hgt
          push_neg at hgt
          exact hmax j hgt hj
        · intro j hj hj9
          by_contra hlt
          push_neg at hlt
          exact hmin j (by omega) hlt hj
  · intro msg hc
    simp only [extract_program] at hc
    cases hr : rfindL "```python".data response.data with
    | none => exact Or.inl (rfindL_eq_none (by decide) hr)
    | some a =>
      simp only [hr] at hc
      cases hf : findFrom "```".data response.data (a + 8) with
      | none =>
        obtain ⟨hocc, hmax⟩ := rfindL_eq_some (by decide) hr
        refine Or.inr ⟨a, hocc, fun j hj => ?_, fun j hj9 =>
          findFrom_eq_none (by decide) hf j (by omega)⟩
        by_contra hgt
        push_neg at hgt
        exact hmax j hgt hj
      | some e => rw [hf] at hc; exact (Except.noConfusion hc)

/-- C8 witness: the positive branch applied to a response with two opening
markers; extraction yields the second block "B". -/
theorem C8_fence_anchoring_witness :
    ∃ a e : Nat,
      occursAt "```python".data "```python\nA\n``` and ```python\nB\n```".data a
      ∧ (∀ j, occursAt "```python".data "```python\nA\n``` and ```python\nB\n```".data j → j ≤ a)
      ∧ occursAt "```".data "```python\nA\n``` and ```python\nB\n```".data e ∧ a + 9 ≤ e
      ∧ (∀ j, occursAt "```".data "```python\nA\n``` and ```python\nB\n```".data j →
          a + 9 ≤ j → e ≤ j)
      ∧ "B" = String.mk (pyStrip
          (("```python\nA\n``` and ```python\nB\n```".data.drop (a + 9)).take (e - (a + 9)))) :=
  (C8_fence_anchoring "```python\nA\n``` and ```python\nB\n```").1 "B" (by rfl)

/-- C10 (confirmed): `load_transform_function` executes the source twice in
the same namespace — the first execution unguarded, so a raising source
propagates its original exception unwrapped rather than the guarded second
execution's wrapped ValueError — and a module-level side effect (here a
counter the defined transform reports) is observed twice per load. -/
theorem C10_double_exec_unwrapped :
    (∀ (execC : ExecSem) (code : String) (e : String),
      execC code emptyNS = .error e → load_transform_function execC code = .error e)
    ∧ (∀ (execC : ExecSem) (code : String) (ns1 : PyNamespace),
      execC code emptyNS = .ok ns1 →
      load_transform_function execC code =
        (match execC code ns1 with
         | .error e => .error ("Failed to execute code with error: " ++ e)
         | .ok ns2 =>
           match ns2.transform with
           | Option.none => .error "No transform function found in the code"
           | some f => .ok f))
    ∧ ∃ f : TransformFn,
        load_transform_function
          (fun _ ns => .ok ⟨ns.counter + 1, some (fun _ => .ok (.int (ns.counter + 1)))⟩) "c"
          = .ok f
        ∧ f PyVal.none = .ok (.int 2) := by
  refine ⟨?_, ?_, ⟨_, rfl, rfl⟩⟩
  · intro execC code e h
    simp only [load_transform_function, h]
  · intro execC code ns1 h
    simp only [load_transform_function, h]

/-- C10 witness: a source that raises while being defined propagates its
original message, not the wrapped "Failed to execute code" ValueError. -/
theorem C10_double_exec_unwrapped_witness :
    load_transform_function (fun _ _ => .error "boom") "c" = .error "boom" :=
  C10_double_exec_unwrapped.1 (fun _ _ => .error "boom") "c" "boom" rfl

theorem insertDescK_perm {α : Type} (score : α → ℚ) (e : α) :
    ∀ l : List α, (insertDescK score e l).Perm (e :: l) := by
  intro l
  induction l with
  | nil => simp [insertDescK]
  | cons x xs ih =>
    rw [insertDescK]
    by_cases h : score x < score e
    · rw [if_pos h]
    · rw [if_neg h]
      exact (ih.cons x).trans (List.Perm.swap e x xs)

theorem foldl_insertDescK_perm {α : Type} (score : α → ℚ) :
    ∀ (l acc : List α), (l.foldl (fun a e => insertDescK score e a) acc).Perm (l ++ acc) := by
  intro l
  induction l with
  | nil => intro acc; simp
  | cons x xs ih =>
    intro acc
    rw [List.foldl_cons]
    refine ((ih (insertDescK score x acc)).trans ?_)
    refine (List.Perm.append_left xs (insertDescK_perm score x acc)).trans ?_
    exact List.perm_middle

theorem sortDescK_perm {α : Type} (score : α → ℚ) (l : List α) :
    (sortDescK score l).Perm l := by
  have h := foldl_insertDescK_perm score l []
  rw [List.append_nil] at h
  exact h

theorem map_snd_insertDescK (e : Nat × EvalEntry) :
    ∀ l : List (Nat × EvalEntry),
      (insertDescK (fun p => p.2.score) e l).map Prod.snd =
        insertDescK EvalEntry.score e.2 (l.map Prod.snd) := by
  intro l
  induction l with
  | nil => rfl
  | cons x xs ih =>
    simp only [insertDescK, List.map_cons]
    by_cases h : x.2.score < e.2.score
    · rw [if_pos h, if_pos h]
      simp
    · rw [if_neg h, if_neg h]
      simp [ih]

theorem map_snd_sortTagged :
    ∀ (t acc : List (Nat × EvalEntry)),
      (t.foldl (fun a e => insertDescK (fun p => p.2.score) e a) acc).map Prod.snd =
        (t.map Prod.snd).foldl (fun a e => insertDescK EvalEntry.score e a) (acc.map Prod.snd) := by
  intro t
  induction t with
  | nil => intro acc; rfl
  | cons x xs ih =>
    intro acc
    rw [List.foldl_cons, List.map_cons, List.foldl_cons, ih, map_snd_insertDescK]

theorem le_fst_of_mem_enumFrom {α : Type} :
    ∀ {l : List α} {n : Nat} {x : Nat × α}, x ∈ List.enumFrom n l → n ≤ x.1 := by
  intro l
  induction l with
  | nil => intro n x h; simp [List.enumFrom] at h
  | cons a as ih =>
    intro n x h
    rw [List.enumFrom] at h
    rcases List.mem_cons.mp h with he | hm
    · subst he; exact Nat.le_refl n
    · exact Nat.le_of_succ_le (ih hm)

theorem enumFrom_pairwise_lt {α : Type} :
    ∀ (l : List α) (n : Nat), (List.enumFrom n l).Pairwise (fun a b => a.1 < b.1) := by
  intro l
  induction l with
  | nil => intro n; simp [List.enumFrom]
  | cons a as ih =>
    intro n
    rw [List.enumFrom, List.pairwise_cons]
    exact ⟨fun y hy => Nat.lt_of_succ_le (le_fst_of_mem_enumFrom hy), ih (n + 1)⟩

theorem insertDescK_pairwise (e : Nat × EvalEntry) :
    ∀ acc : List (Nat × EvalEntry), acc.Pairwise stableDescKey →
      (∀ x ∈ acc, x.1 < e.1) →
      (insertDescK (fun p => p.2.score) e acc).Pairwise stableDescKey := by
  intro acc
  induction acc with
  | nil => intro _ _; simp [insertDescK]
  | cons x xs ih =>
    intro hp hidx
    rw [List.pairwise_cons] at hp
    obtain ⟨hx, hxs⟩ := hp
    rw [insertDescK]
    by_cases hlt : x.2.score < e.2.score
    · rw [if_pos hlt]
      rw [List.pairwise_cons]
      refine ⟨?_, List.pairwise_cons.mpr ⟨hx, hxs⟩⟩
      intro y hy
      rcases List.mem_cons.mp hy with he | hm
      · subst he; exact Or.inl hlt
      · rcases hx y hm with h1 | h2
        · exact Or.inl (lt_trans h1 hlt)
        · exact Or.inl (h2.1 ▸ hlt)
    · rw [if_neg hlt]
      rw [List.pairwise_cons]
      refine ⟨?_, ih hxs (fun z hz => hidx z (by simp [hz]))⟩
      intro y hy
      have hy' : y = e ∨ y ∈ xs := by
        have := (insertDescK_perm (fun p => p.2.score) e xs).mem_iff.mp hy
        simpa using this
      rcases hy' with he | hm
      · subst he
        rcases lt_or_eq_of_le (not_lt.mp hlt) with h1 | h2
        · exact Or.inl h1
        · exact Or.inr ⟨h2.symm, Nat.le_of_lt (hidx x (by simp))⟩
      · exact hx y hm

theorem sortTagged_pairwise :
    ∀ (t acc : List (Nat × EvalEntry)),
      acc.Pairwise stableDescKey →
      (∀ x ∈ acc, ∀ y ∈ t, x.1 < y.1) →
      t.Pairwise (fun a b => a.1 < b.1) →
      (t.foldl (fun a e => insertDescK (fun p => p.2.score) e a) acc).Pairwise stableDescKey := by
  intro t
  induction t with
  | nil => intro acc hacc _ _; simpa using hacc
  | cons x xs ih =>
    intro acc hacc hcross hpair
    rw [List.foldl_cons]
    rw [List.pairwise_cons] at hpair
    apply ih
    · exact insertDescK_pairwise x acc hacc (fun z hz => hcross z hz x (by simp))
    · intro z hz y hy
      have hz' : z = x ∨ z ∈ acc := by
        have := (insertDescK_perm (fun p => p.2.score) x acc).mem_iff.mp hz
        simpa using this
      rcases hz' with he | hm
      · subst he; exact hpair.1 y hy
      · exact hcross z hm y (by simp [hy])
    · exact hpair.2

theorem sortDescK_stable (l : List EvalEntry) :
    ∃ t : List (Nat × EvalEntry),
      sortDescK EvalEntry.score l = t.map Prod.snd
      ∧ t.Perm l.enum ∧ t.Pairwise stableDescKey := by
  refine ⟨sortDescK (fun p => p.2.score) l.enum, ?_, sortDescK_perm _ _, ?_⟩
  · rw [sortDescK, sortDescK, map_snd_sortTagged, List.enum_map_snd]
    rfl
  · rw [sortDescK]
    apply sortTagged_pairwise l.enum [] (by simp) (by simp)
    exact enumFrom_pairwise_lt l 0

theorem genEval_all_unsolved (lit : LitEval) (execC : ExecSem) (task : TaskData) :
    ∀ rs : List String,
      (∀ r ∈ rs, okUnsolved (evaluate_response lit execC r task) = true) →
      ∃ es, genEval lit execC task rs = .ok (es, false) ∧ es.length = rs.length := by
  intro rs
  induction rs with
  | nil => intro _; exact ⟨[], rfl, rfl⟩
  | cons r rest ih =>
    intro h
    have hr := h r (by simp)
    cases hv : evaluate_response lit execC r task with
    | error e => rw [hv] at hr; simp [okUnsolved] at hr
    | ok v =>
      rw [hv] at hr
      simp [okUnsolved] at hr
      obtain ⟨es, hes, hlen⟩ := ih (fun x hx => h x (by simp [hx]))
      refine ⟨⟨r, v.code, v.correctness + v.avg_pixel, v.results⟩ :: es, ?_, by simp [hlen]⟩
      rw [genEval]
      simp only [hv]
      rw [if_neg (by simp [hr])]
      simp only [hes]

theorem genEval_first_solved (lit : LitEval) (execC : ExecSem) (task : TaskData) :
    ∀ (pre : List String) (r : String) (post : List String),
      (∀ x ∈ pre, okUnsolved (evaluate_response lit execC x task) = true) →
      okSolved (evaluate_response lit execC r task) = true →
      ∃ es, genEval lit execC task (pre ++ r :: post) = .ok (es, true)
        ∧ es.length = pre.length + 1 := by
  intro pre
  induction pre with
  | nil =>
    intro r post _ hr
    cases hv : evaluate_response lit execC r task with
    | error e => rw [hv] at hr; simp [okSolved] at hr
    | ok v =>
      rw [hv] at hr
      simp [okSolved] at hr
      refine ⟨[⟨r, v.code, v.correctness + v.avg_pixel, v.results⟩], ?_, rfl⟩
      rw [List.nil_append, genEval]
      simp only [hv]
      rw [if_pos hr]
  | cons x pre' ih =>
    intro r post hpre hr
    have hx := hpre x (by simp)
    cases hv : evaluate_response lit execC x task with
    | error e => rw [hv] at hx; simp [okUnsolved] at hx
    | ok v =>
      rw [hv] at hx
      simp [okUnsolved] at hx
      obtain ⟨es, hes, hlen⟩ := ih r post (fun z hz => hpre z (by simp [hz])) hr
      refine ⟨⟨x, v.code, v.correctness + v.avg_pixel, v.results⟩ :: es, ?_, by simp [hlen]⟩
      rw [List.cons_append, genEval]
      simp only [hv]
      rw [if_neg (by simp [hx])]
      simp only [hes]

theorem evoLoop_exhaust (P : Prompts) (lit : LitEval) (execC : ExecSem)
    (query : Nat → Nat → String) (task : TaskData) :
    ∀ (rem i : Nat) (top : List EvalEntry),
      (∀ g k, i ≤ g → g < i + rem → k < programs_per_gen →
        okUnsolved (evaluate_response lit execC (query g k) task) = true) →
      ∃ log : List GenLog,
        evoLoop P lit execC query task i rem top = .ok (false, log)
        ∧ log.length = rem
        ∧ (∀ gl ∈ log, gl.evals.length = programs_per_gen
            ∧ gl.retained = (sortDescK EvalEntry.score gl.evals).take 2)
        ∧ (0 < rem → ∃ gl rest, log = gl :: rest
            ∧ gl.prompt = (if i = 0 then construct_initial_prompt task
                else construct_initial_prompt task ++ "\n\n" ++ construct_funsearch_prompt P top))
        ∧ chainedPrompts P task log := by
  intro rem
  induction rem with
  | zero =>
    intro i top _
    exact ⟨[], rfl, rfl, by simp, by omega, trivial⟩
  | succ rem' ih =>
    intro i top hun
    have hresp : ∀ r ∈ (List.range programs_per_gen).map (query i),
        okUnsolved (evaluate_response lit execC r task) = true := by
      intro r hrm
      rw [List.mem_map] at hrm
      obtain ⟨k, hk, rfl⟩ := hrm
      exact hun i k (Nat.le_refl i) (by omega) (by simpa using hk)
    obtain ⟨es, hes, hlen⟩ := genEval_all_unsolved lit execC task _ hresp
    obtain ⟨log', h1, h2, h3, h4, h5⟩ := ih (i + 1) ((sortDescK EvalEntry.score es).take 2)
      (fun g k hg1 hg2 hk => hun g k (by omega) (by omega) hk)
    refine ⟨⟨(if i = 0 then construct_initial_prompt task
        else construct_initial_prompt task ++ "\n\n" ++ construct_funsearch_prompt P top),
        es, (sortDescK EvalEntry.score es).take 2⟩ :: log', ?_, by simp [h2], ?_, ?_, ?_⟩
    · rw [evoLoop]
      simp only [hes]
      rw [if_neg (by simp)]
      simp only [h1]
    · intro gl hgl
      rcases List.mem_cons.mp hgl with he | hm
      · subst he
        exact ⟨by simp [hlen], rfl⟩
      · exact h3 gl hm
    · intro _
      exact ⟨_, log', rfl, rfl⟩
    · cases hlog' : log' with
      | nil => trivial
      | cons b rest =>
        rw [chainedPrompts]
        constructor
        · obtain ⟨gl', rest', heq, hprompt⟩ := h4 (by rw [hlog'] at h2; simp at h2; omega)
          rw [hlog'] at heq
          injection heq with he1 he2
          rw [he1, hprompt, if_neg (Nat.succ_ne_zero i)]
        · rw [← hlog']
          rw [hlog'] at h5
          rw [hlog']
          exact h5

theorem evoLoop_solve (P : Prompts) (lit : LitEval) (execC : ExecSem)
    (query : Nat → Nat → String) (task : TaskData) :
    ∀ (g i rem : Nat) (top : List EvalEntry) (k : Nat),
      g < rem → k < programs_per_gen →
      (∀ g' k', g' < g → k' < programs_per_gen →
        okUnsolved (evaluate_response lit execC (query (i + g') k') task) = true) →
      (∀ k', k' < k → okUnsolved (evaluate_response lit execC (query (i + g) k') task) = true) →
      okSolved (evaluate_response lit execC (query (i + g) k) task) = true →
      ∃ (log : List GenLog) (last : GenLog),
        evoLoop P lit execC query task i rem top = .ok (true, log)
        ∧ log.length = g + 1 ∧ log.getLast? = some last ∧ last.evals.length = k + 1 := by
  intro g
  induction g with
  | zero =>
    intro i rem top k hg hk _ hpre hsolved
    simp only [Nat.add_zero] at hpre hsolved
    cases rem with
    | zero => omega
    | succ rem' =>
      have htake : ((List.range programs_per_gen).map (query i)).take k =
          (List.range k).map (query i) := by
        rw [← List.map_take, List.take_range, Nat.min_eq_left (Nat.le_of_lt hk)]
      have hkrs : k < ((List.range programs_per_gen).map (query i)).length := by
        simpa using hk
      have hget : ((List.range programs_per_gen).map (query i))[k] = query i k := by
        simp
      have hsplit : (List.range programs_per_gen).map (query i) =
          ((List.range k).map (query i)) ++ (query i k) ::
            ((List.range programs_per_gen).map (query i)).drop (k + 1) := by
        conv_lhs => rw [← List.take_append_drop k ((List.range programs_per_gen).map (query i))]
        rw [List.drop_eq_getElem_cons hkrs, htake, hget]
      have hpre' : ∀ x ∈ (List.range k).map (query i),
          okUnsolved (evaluate_response lit execC x task) = true := by
        intro x hx
        rw [List.mem_map] at hx
        obtain ⟨j, hj, rfl⟩ := hx
        exact hpre j (by simpa using hj)
      obtain ⟨es, hges, heslen⟩ := genEval_first_solved lit execC task
        ((List.range k).map (query i)) (query i k)
        (((List.range programs_per_gen).map (query i)).drop (k + 1)) hpre' hsolved
      have hgenEval : genEval lit execC task ((List.range programs_per_gen).map (query i)) =
          .ok (es, true) := by
        rw [hsplit]
        exact hges
      refine ⟨[⟨(if i = 0 then construct_initial_prompt task
          else construct_initial_prompt task ++ "\n\n" ++ construct_funsearch_prompt P top),
          es, []⟩],
        ⟨(if i = 0 then construct_initial_prompt task
          else construct_initial_prompt task ++ "\n\n" ++ construct_funsearch_prompt P top),
          es, []⟩, ?_, rfl, ?_, ?_⟩
      · rw [evoLoop]
        simp only [hgenEval]
        simp
      · rfl
      · simp only [heslen]
        simp
  | succ g' ih =>
    intro i rem top k hg hk hprev hpre hsolved
    cases rem with
    | zero => omega
    | succ rem' =>
      have hresp : ∀ r ∈ (List.range programs_per_gen).map (query i),
          okUnsolved (evaluate_response lit execC r task) = true := by
        intro r hrm
        rw [List.mem_map] at hrm
        obtain ⟨j, hj, rfl⟩ := hrm
        have := hprev 0 j (by omega) (by simpa using hj)
        simpa using this
      obtain ⟨es, hes, heslen⟩ := genEval_all_unsolved lit execC task _ hresp
      obtain ⟨log', last, hl1, hl2, hl3, hl4⟩ := ih (i + 1) rem'
        ((sortDescK EvalEntry.score es).take 2) k (by omega) hk
        (fun g'' k' hg'' hk' => by
          have h := hprev (g'' + 1) k' (by omega) hk'
          rw [show i + 1 + g'' = i + (g'' + 1) from by omega]
          exact h)
        (fun k' hk' => by
          have h := hpre k' hk'
          rw [show i + 1 + g' = i + (g' + 1) from by omega]
          exact h)
        (by
          rw [show i + 1 + g' = i + (g' + 1) from by omega]
          exact hsolved)
      refine ⟨⟨(if i = 0 then construct_initial_prompt task
          else construct_initial_prompt task ++ "\n\n" ++ construct_funsearch_prompt P top),
          es, (sortDescK EvalEntry.score es).take 2⟩ :: log', last, ?_, by simp [hl2], ?_, hl4⟩
      · rw [evoLoop]
        simp only [hes]
        rw [if_neg (by simp)]
        simp only [hl1]
      · cases hlog' : log' with
        | nil => rw [hlog'] at hl2; simp at hl2
        | cons b rest =>
          rw [List.getLast?_cons_cons]
          rw [← hlog']
          exact hl3

/-- C9 (confirmed): (i) on a task where every evaluated candidate is
unsolved, the evolutionary search runs exactly `max_tries` = 5 generations
of `programs_per_gen` = 5 candidates each and returns failure, the first
generation prompted from the task examples alone, each later generation's
prompt chaining in the previous generation's retained entries, which are
always the top 2 of the stable descending sort of that generation's
entries; (ii) that sort is a permutation ordered by score descending with
ties broken by original position; (iii) the moment a candidate is solved
the search returns success, having evaluated only the candidates up to and
including it in that generation. -/
theorem C9_evolutionary_search :
    (∀ (P : Prompts) (lit : LitEval) (execC : ExecSem) (query : Nat → Nat → String)
        (task : TaskData),
      (∀ g k, g < max_tries → k < programs_per_gen →
        okUnsolved (evaluate_response lit execC (query g k) task) = true) →
      ∃ log : List GenLog,
        evolutionary_method P lit execC query task = .ok (false, log)
        ∧ log.length = max_tries
        ∧ (∀ gl ∈ log, gl.evals.length = programs_per_gen
            ∧ gl.retained = (sortDescK EvalEntry.score gl.evals).take 2)
        ∧ (∃ gl rest, log = gl :: rest ∧ gl.prompt = construct_initial_prompt task)
        ∧ chainedPrompts P task log)
    ∧ (∀ l : List EvalEntry, ∃ t : List (Nat × EvalEntry),
        sortDescK EvalEntry.score l = t.map Prod.snd
        ∧ t.Perm l.enum ∧ t.Pairwise stableDescKey)
    ∧ (∀ (P : Prompts) (lit : LitEval) (execC : ExecSem) (query : Nat → Nat → String)
        (task : TaskData) (g k : Nat),
      g < max_tries → k < programs_per_gen →
      (∀ g' k', g' < g → k' < programs_per_gen →
        okUnsolved (evaluate_response lit execC (query g' k') task) = true) →
      (∀ k', k' < k → okUnsolved (evaluate_response lit execC (query g k') task) = true) →
      okSolved (evaluate_response lit execC (query g k) task) = true →
      ∃ (log : List GenLog) (last : GenLog),
        evolutionary_method P lit execC query task = .ok (true, log)
        ∧ log.length = g + 1 ∧ log.getLast? = some last ∧ last.evals.length = k + 1) := by
  refine ⟨?_, sortDescK_stable, ?_⟩
  · intro P lit execC query task hun
    obtain ⟨log, h1, h2, h3, h4, h5⟩ := evoLoop_exhaust P lit execC query task max_tries 0 []
      (fun g k hg1 hg2 hk => hun g k (by omega) hk)
    obtain ⟨gl, rest, hcons, hprompt⟩ := h4 (by simp [max_tries])
    exact ⟨log, h1, h2, h3, ⟨gl, rest, hcons, by simpa using hprompt⟩, h5⟩
  · intro P lit execC query task g k hg hk hprev hpre hsol
    obtain ⟨log, last, h1, h2, h3, h4⟩ := evoLoop_solve P lit execC query task g 0 max_tries [] k
      hg hk
      (fun g' k' hg' hk' => by simpa using hprev g' k' hg' hk')
      (fun k' hk' => by simpa using hpre k' hk')
      (by simpa using hsol)
    exact ⟨log, last, h1, h2, h3, h4⟩

/-- C9 witness: a constant never-solving oracle — the theorem's exhaustion
branch applied to it yields failure after exactly 5 generations. -/
theorem C9_evolutionary_search_witness :
    ∃ log : List GenLog,
      evolutionary_method ⟨"", ""⟩ (fun _ => .error "x") (fun _ ns => .ok ns)
        (fun _ _ => "r") ⟨[([[0]], [[0]])], [[0]], [[0]]⟩ = .ok (false, log)
      ∧ log.length = max_tries := by
  obtain ⟨log, h1, h2, _⟩ := C9_evolutionary_search.1 ⟨"", ""⟩ (fun _ => .error "x")
    (fun _ ns => .ok ns) (fun _ _ => "r") ⟨[([[0]], [[0]])], [[0]], [[0]]⟩
    (fun _ _ _ _ => rfl)
  exact ⟨log, h1, h2⟩

/-- C6 witness: the pass-through branch of the amended theorem applied to a
non-grid value (an integer), which extract_array hands over unvalidated. -/
theorem C6_amended_no_validation_witness :
    extract_array (fun _ => .ok (PyVal.int 3)) "<output>x</output>" = .ok (PyVal.int 3) :=
  C6_amended_no_validation.1 (PyVal.int 3)
